import Mathlib

/-
Verification of the Netflix catalog cleaning pipeline (Data cleaning.py) and
the schema-relevant part of the dashboard (netflix_dashboard.py).

The pipeline is embedded shallowly:
  * a table is a column list plus rows, a row an association list of
    column name to cell;
  * a cell is missing (`na`), a string, an integer, or a date, mirroring
    the value kinds that occur in the dataframe (NaN / object / int64 /
    datetime64);
  * each line of the cleaning script becomes one table-to-table function.

String handling models the ASCII fragment of Python semantics: `str.strip`,
`str.title`, `str.lower` and the regex `^\s*$` are embedded over lists of
characters, with case mapping restricted to ASCII letters (the dataset's
columns are ASCII text).
-/

/-! ### Character layer: ASCII model of Python case and whitespace tests -/

/-- Code-point round trip for characters below the surrogate range. -/
theorem charToNatOfNat (n : Nat) (h : n < 55296) : (Char.ofNat n).toNat = n := by
  have hv : n.isValidChar := Or.inl h
  simp [Char.ofNat, hv, Char.ofNatAux, Char.toNat, UInt32.toNat, BitVec.toNat_ofNatLt]

/-- ASCII uppercase mapping of a character (model of Python `str.upper` on one char). -/
def upChar (c : Char) : Char :=
  if 97 ≤ c.toNat ∧ c.toNat ≤ 122 then Char.ofNat (c.toNat - 32) else c

/-- ASCII lowercase mapping of a character (model of Python `str.lower` on one char). -/
def lowChar (c : Char) : Char :=
  if 65 ≤ c.toNat ∧ c.toNat ≤ 90 then Char.ofNat (c.toNat + 32) else c

/-- ASCII model of Python's "cased character" test (a letter). -/
def isCasedChar (c : Char) : Bool :=
  decide (97 ≤ c.toNat ∧ c.toNat ≤ 122) || decide (65 ≤ c.toNat ∧ c.toNat ≤ 90)

/-- The whitespace class of Python `str.strip` and of the `\s` regex class
(space, tab, newline, vertical tab, form feed, carriage return). -/
def isWsChar (c : Char) : Bool :=
  decide (c.toNat = 32) || decide (9 ≤ c.toNat ∧ c.toNat ≤ 13)

theorem upChar_toNat (c : Char) :
    (upChar c).toNat = if 97 ≤ c.toNat ∧ c.toNat ≤ 122 then c.toNat - 32 else c.toNat := by
  by_cases h : 97 ≤ c.toNat ∧ c.toNat ≤ 122
  · rw [upChar, if_pos h, if_pos h]
    exact charToNatOfNat _ (by omega)
  · rw [upChar, if_neg h, if_neg h]

theorem lowChar_toNat (c : Char) :
    (lowChar c).toNat = if 65 ≤ c.toNat ∧ c.toNat ≤ 90 then c.toNat + 32 else c.toNat := by
  by_cases h : 65 ≤ c.toNat ∧ c.toNat ≤ 90
  · rw [lowChar, if_pos h, if_pos h]
    exact charToNatOfNat _ (by omega)
  · rw [lowChar, if_neg h, if_neg h]

theorem upChar_eq_self (c : Char) (h : ¬ (97 ≤ c.toNat ∧ c.toNat ≤ 122)) : upChar c = c :=
  if_neg h

theorem lowChar_eq_self (c : Char) (h : ¬ (65 ≤ c.toNat ∧ c.toNat ≤ 90)) : lowChar c = c :=
  if_neg h

theorem up_up (c : Char) : upChar (upChar c) = upChar c := by
  apply upChar_eq_self
  have h1 := upChar_toNat c
  by_cases h2 : 97 ≤ c.toNat ∧ c.toNat ≤ 122
  · rw [if_pos h2] at h1; omega
  · rw [if_neg h2] at h1; omega

theorem low_low (c : Char) : lowChar (lowChar c) = lowChar c := by
  apply lowChar_eq_self
  have h1 := lowChar_toNat c
  by_cases h2 : 65 ≤ c.toNat ∧ c.toNat ≤ 90
  · rw [if_pos h2] at h1; omega
  · rw [if_neg h2] at h1; omega

theorem cased_up (c : Char) : isCasedChar (upChar c) = isCasedChar c := by
  have h1 := upChar_toNat c
  rw [Bool.eq_iff_iff]
  simp only [isCasedChar, Bool.or_eq_true, decide_eq_true_eq]
  by_cases h2 : 97 ≤ c.toNat ∧ c.toNat ≤ 122
  · rw [if_pos h2] at h1; rw [h1]; omega
  · rw [if_neg h2] at h1; rw [h1]

theorem cased_low (c : Char) : isCasedChar (lowChar c) = isCasedChar c := by
  have h1 := lowChar_toNat c
  rw [Bool.eq_iff_iff]
  simp only [isCasedChar, Bool.or_eq_true, decide_eq_true_eq]
  by_cases h2 : 65 ≤ c.toNat ∧ c.toNat ≤ 90
  · rw [if_pos h2] at h1; rw [h1]; omega
  · rw [if_neg h2] at h1; rw [h1]

theorem ws_up (c : Char) : isWsChar (upChar c) = isWsChar c := by
  have h1 := upChar_toNat c
  rw [Bool.eq_iff_iff]
  simp only [isWsChar, Bool.or_eq_true, decide_eq_true_eq]
  by_cases h2 : 97 ≤ c.toNat ∧ c.toNat ≤ 122
  · rw [if_pos h2] at h1; rw [h1]; omega
  · rw [if_neg h2] at h1; rw [h1]

theorem ws_low (c : Char) : isWsChar (lowChar c) = isWsChar c := by
  have h1 := lowChar_toNat c
  rw [Bool.eq_iff_iff]
  simp only [isWsChar, Bool.or_eq_true, decide_eq_true_eq]
  by_cases h2 : 65 ≤ c.toNat ∧ c.toNat ≤ 90
  · rw [if_pos h2] at h1; rw [h1]; omega
  · rw [if_neg h2] at h1; rw [h1]

/-! ### String layer: strip, title, lower, and the blank test over char lists -/

/-- Remove a trailing run of whitespace (the right half of Python `str.strip`). -/
def trimEnd : List Char → List Char
  | [] => []
  | c :: cs =>
    match trimEnd cs with
    | [] => if isWsChar c then [] else [c]
    | d :: ds => c :: d :: ds

/-- Python `str.strip` on a character list: drop leading and trailing whitespace. -/
def stripList (l : List Char) : List Char :=
  trimEnd (l.dropWhile isWsChar)

/-- One character of Python `str.title`: `prev` records whether the previous
character was cased; a cased character is uppercased after an uncased one and
lowercased after a cased one. -/
def caseMap (prev : Bool) (c : Char) : Char :=
  if isCasedChar c then (if prev then lowChar c else upChar c) else c

/-- Python `str.title` on a character list, tracking whether the previous
character was cased. -/
def titleAux : Bool → List Char → List Char
  | _, [] => []
  | prev, c :: cs => caseMap prev c :: titleAux (isCasedChar c) cs

/-- Python `str.title` on a character list. -/
def titleList (l : List Char) : List Char :=
  titleAux false l

/-- The test of the regex `^\s*$`: the list is empty or consists of whitespace. -/
def wsOnlyL (l : List Char) : Bool :=
  l.all isWsChar

theorem caseMap_ws (prev : Bool) (c : Char) : isWsChar (caseMap prev c) = isWsChar c := by
  unfold caseMap
  by_cases h : isCasedChar c = true
  · rw [if_pos h]
    cases prev
    · simp [ws_up]
    · simp [ws_low]
  · rw [if_neg h]

theorem caseMap_cased (prev : Bool) (c : Char) :
    isCasedChar (caseMap prev c) = isCasedChar c := by
  unfold caseMap
  by_cases h : isCasedChar c = true
  · rw [if_pos h]
    cases prev
    · simp [cased_up]
    · simp [cased_low]
  · rw [if_neg h]

theorem caseMap_idem (prev : Bool) (c : Char) :
    caseMap prev (caseMap prev c) = caseMap prev c := by
  unfold caseMap
  by_cases h : isCasedChar c = true
  · rw [if_pos h]
    cases prev
    · simp only [if_true, if_false, Bool.false_eq_true]
      rw [if_pos (by rw [cased_up c]; exact h)]
      simp [up_up]
    · simp only [if_true]
      rw [if_pos (by rw [cased_low c]; exact h)]
      simp [low_low]
  · rw [if_neg h, if_neg h]

theorem titleAux_ws_map (b : Bool) (l : List Char) :
    (titleAux b l).map isWsChar = l.map isWsChar := by
  induction l generalizing b with
  | nil => rfl
  | cons c cs ih => simp [titleAux, caseMap_ws, ih]

theorem titleAux_idem (b : Bool) (l : List Char) :
    titleAux b (titleAux b l) = titleAux b l := by
  induction l generalizing b with
  | nil => rfl
  | cons c cs ih =>
    simp only [titleAux, caseMap_idem, caseMap_cased]
    rw [ih (isCasedChar c)]

theorem titleList_idem (l : List Char) : titleList (titleList l) = titleList l :=
  titleAux_idem false l

/-! ### dropWhile and trimEnd facts -/

theorem dw_len (p : Char → Bool) (l : List Char) :
    (l.dropWhile p).length ≤ l.length := by
  induction l with
  | nil => simp
  | cons c cs ih =>
    by_cases h : p c = true
    · rw [List.dropWhile_cons_of_pos h]; exact Nat.le_succ_of_le ih
    · rw [List.dropWhile_cons_of_neg (by simp [h])]

theorem dw_idem (p : Char → Bool) (l : List Char) :
    (l.dropWhile p).dropWhile p = l.dropWhile p := by
  induction l with
  | nil => rfl
  | cons c cs ih =>
    by_cases h : p c = true
    · rw [List.dropWhile_cons_of_pos h]; exact ih
    · rw [List.dropWhile_cons_of_neg (by simp [h]), List.dropWhile_cons_of_neg (by simp [h])]

theorem dw_eq_self_of_len (p : Char → Bool) (l : List Char)
    (h : (l.dropWhile p).length = l.length) : l.dropWhile p = l := by
  cases l with
  | nil => rfl
  | cons c cs =>
    by_cases hc : p c = true
    · exfalso
      rw [List.dropWhile_cons_of_pos hc] at h
      have := dw_len p cs
      simp at h
      omega
    · rw [List.dropWhile_cons_of_neg (by simp [hc])]

theorem dw_head_neg (p : Char → Bool) (c : Char) (cs : List Char)
    (h : (c :: cs).dropWhile p = c :: cs) : p c = false := by
  by_cases hc : p c = true
  · exfalso
    rw [List.dropWhile_cons_of_pos hc] at h
    have h1 : (cs.dropWhile p).length = (c :: cs).length := by rw [h]
    have := dw_len p cs
    simp at h1
    omega
  · simp at hc; exact hc

theorem dw_transport (p : Char → Bool) (l₁ l₂ : List Char)
    (hm : l₁.map p = l₂.map p) (h : l₂.dropWhile p = l₂) : l₁.dropWhile p = l₁ := by
  cases l₁ with
  | nil => rfl
  | cons c cs =>
    cases l₂ with
    | nil => simp at hm
    | cons d ds =>
      simp only [List.map_cons, List.cons.injEq] at hm
      have hd : p d = false := dw_head_neg p d ds h
      have hc : p c = false := by rw [hm.1, hd]
      rw [List.dropWhile_cons_of_neg (by simp [hc])]

theorem dw_mem (p : Char → Bool) (a : Char) (l : List Char)
    (ha : a ∈ l) (hp : p a = false) : a ∈ l.dropWhile p := by
  induction l with
  | nil => cases ha
  | cons c cs ih =>
    by_cases hc : p c = true
    · rw [List.dropWhile_cons_of_pos hc]
      cases List.mem_cons.mp ha with
      | inl h => exact absurd (h ▸ hp) (by simp [hc])
      | inr h => exact ih h
    · rw [List.dropWhile_cons_of_neg (by simp [hc])]; exact ha

theorem trimEnd_shape (c : Char) (cs : List Char) :
    trimEnd (c :: cs) = [] ∨ ∃ ds, trimEnd (c :: cs) = c :: ds := by
  unfold trimEnd
  cases h : trimEnd cs with
  | nil =>
    by_cases hc : isWsChar c = true
    · left; simp [hc]
    · right; exact ⟨[], by simp [hc]⟩
  | cons d ds => right; exact ⟨d :: ds, rfl⟩

theorem trimEnd_len (l : List Char) : (trimEnd l).length ≤ l.length := by
  induction l with
  | nil => simp [trimEnd]
  | cons c cs ih =>
    unfold trimEnd
    cases h : trimEnd cs with
    | nil =>
      by_cases hc : isWsChar c = true
      · simp [hc]
      · simp [hc]
    | cons d ds =>
      simp only [List.length_cons]
      rw [h] at ih
      simp at ih
      simp
      omega

theorem trimEnd_cons (c : Char) (cs : List Char) :
    trimEnd (c :: cs) =
      match trimEnd cs with
      | [] => if isWsChar c then [] else [c]
      | d :: ds => c :: d :: ds := rfl

theorem trimEnd_idem (l : List Char) : trimEnd (trimEnd l) = trimEnd l := by
  induction l with
  | nil => rfl
  | cons c cs ih =>
    cases h : trimEnd cs with
    | nil =>
      by_cases hc : isWsChar c = true
      · have h2 : trimEnd (c :: cs) = [] := by rw [trimEnd_cons, h]; simp [hc]
        rw [h2]; rfl
      · have h2 : trimEnd (c :: cs) = [c] := by rw [trimEnd_cons, h]; simp [hc]
        rw [h2, trimEnd_cons]
        simp [trimEnd, hc]
    | cons d ds =>
      rw [h] at ih
      have h2 : trimEnd (c :: cs) = c :: d :: ds := by rw [trimEnd_cons, h]
      rw [h2, trimEnd_cons, ih]

theorem trimEnd_mem (a : Char) (l : List Char)
    (ha : a ∈ l) (hp : isWsChar a = false) : a ∈ trimEnd l := by
  induction l with
  | nil => cases ha
  | cons c cs ih =>
    unfold trimEnd
    cases List.mem_cons.mp ha with
    | inl h =>
      subst h
      cases ht : trimEnd cs with
      | nil => simp [hp]
      | cons d ds => simp
    | inr h =>
      have hmem := ih h
      cases ht : trimEnd cs with
      | nil => rw [ht] at hmem; cases hmem
      | cons d ds => rw [ht] at hmem; simp [List.mem_cons.mp hmem]

theorem trimEnd_transport (l₁ l₂ : List Char)
    (hm : l₁.map isWsChar = l₂.map isWsChar) (h : trimEnd l₂ = l₂) :
    trimEnd l₁ = l₁ := by
  induction l₁ generalizing l₂ with
  | nil => rfl
  | cons c cs ih =>
    cases l₂ with
    | nil => simp at hm
    | cons d ds =>
      simp only [List.map_cons, List.cons.injEq] at hm
      rw [trimEnd_cons] at h
      cases hds : trimEnd ds with
      | nil =>
        rw [hds] at h
        by_cases hd : isWsChar d = true
        · rw [if_pos hd] at h; cases h
        · rw [if_neg hd] at h
          have hds0 : ds = [] := by
            simp only [List.cons.injEq] at h
            exact h.2.symm
          subst hds0
          have hcs : cs = [] := by
            cases cs with
            | nil => rfl
            | cons x xs => simp at hm
          subst hcs
          have hc : isWsChar c = false := by
            rw [hm.1]; simp at hd; exact hd
          simp [trimEnd, hc]
      | cons e es =>
        rw [hds] at h
        have h2 : ds = e :: es := by
          simp only [List.cons.injEq] at h
          exact h.2.symm
        have hdd : trimEnd ds = ds := by rw [hds, h2]
        have hcc : trimEnd cs = cs := ih ds hm.2 hdd
        rw [trimEnd_cons, hcc]
        cases cs with
        | nil =>
          exfalso
          subst h2
          simp at hm
        | cons x xs => rfl

/-! ### stripList facts -/

theorem stripList_idem (l : List Char) : stripList (stripList l) = stripList l := by
  unfold stripList
  have h1 : (trimEnd (l.dropWhile isWsChar)).dropWhile isWsChar
      = trimEnd (l.dropWhile isWsChar) := by
    cases hX : l.dropWhile isWsChar with
    | nil => simp [trimEnd]
    | cons c cs =>
      have hc : isWsChar c = false := by
        apply dw_head_neg isWsChar c cs
        have := dw_idem isWsChar l
        rw [hX] at this
        exact this
      cases trimEnd_shape c cs with
      | inl h => rw [h]; rfl
      | inr h =>
        obtain ⟨ds, hds⟩ := h
        rw [hds]
        rw [List.dropWhile_cons_of_neg (by simp [hc])]
  rw [h1, trimEnd_idem]

theorem stripList_eq_self_parts (l : List Char) (h : stripList l = l) :
    l.dropWhile isWsChar = l ∧ trimEnd l = l := by
  have hdw : l.dropWhile isWsChar = l := by
    apply dw_eq_self_of_len
    have h1 := trimEnd_len (l.dropWhile isWsChar)
    have h2 := dw_len isWsChar l
    have h3 : (stripList l).length = l.length := by rw [h]
    unfold stripList at h3
    omega
  refine ⟨hdw, ?_⟩
  unfold stripList at h
  rw [hdw] at h
  exact h

theorem stripList_transport (l₁ l₂ : List Char)
    (hm : l₁.map isWsChar = l₂.map isWsChar) (h : stripList l₂ = l₂) :
    stripList l₁ = l₁ := by
  obtain ⟨hdw, hte⟩ := stripList_eq_self_parts l₂ h
  have hdw1 : l₁.dropWhile isWsChar = l₁ := dw_transport isWsChar l₁ l₂ hm hdw
  have hte1 : trimEnd l₁ = l₁ := trimEnd_transport l₁ l₂ hm hte
  unfold stripList
  rw [hdw1, hte1]

theorem strip_title_strip (l : List Char) :
    stripList (titleList (stripList l)) = titleList (stripList l) := by
  apply stripList_transport _ (stripList l)
  · exact titleAux_ws_map false (stripList l)
  · exact stripList_idem l

theorem all_eq_of_map_eq (p : Char → Bool) (l₁ l₂ : List Char)
    (hm : l₁.map p = l₂.map p) : l₁.all p = l₂.all p := by
  induction l₁ generalizing l₂ with
  | nil => cases l₂ with
    | nil => rfl
    | cons d ds => simp at hm
  | cons c cs ih =>
    cases l₂ with
    | nil => simp at hm
    | cons d ds =>
      simp only [List.map_cons, List.cons.injEq] at hm
      simp only [List.all_cons, hm.1, ih ds hm.2]

theorem wsOnly_title (l : List Char) : wsOnlyL (titleList l) = wsOnlyL l :=
  all_eq_of_map_eq isWsChar (titleList l) l (titleAux_ws_map false l)

theorem wsOnly_strip (l : List Char) (h : wsOnlyL l = false) :
    wsOnlyL (stripList l) = false := by
  unfold wsOnlyL at h ⊢
  rw [List.all_eq_false] at h ⊢
  obtain ⟨a, ha, hp⟩ := h
  refine ⟨a, ?_, hp⟩
  simp only [Bool.not_eq_true] at hp
  exact trimEnd_mem a _ (dw_mem isWsChar a l ha hp) hp

/-! ### String wrappers -/

/-- Python `str.strip()` (ASCII whitespace model). -/
def pyStrip (s : String) : String := ⟨stripList s.data⟩

/-- Python `str.title()` (ASCII model). -/
def pyTitle (s : String) : String := ⟨titleList s.data⟩

/-- Python `str.lower()` (ASCII model); used by the dashboard. -/
def pyLower (s : String) : String := ⟨s.data.map lowChar⟩

/-- Whether a string matches the regex `^\s*$` (empty or whitespace only). -/
def wsOnly (s : String) : Bool := wsOnlyL s.data

/-! ### Cells

A cell of the dataframe: missing (`NaN`/`NaT`), a string, an integer
(`int64`), or a date (`datetime64`, kept at day precision as in the data).
-/

inductive Cell where
  | na : Cell
  | str : String → Cell
  | num : Int → Cell
  | date : Nat → Nat → Nat → Cell
deriving DecidableEq, Repr

/-- Whether a cell is missing. -/
def isNa : Cell → Bool
  | Cell.na => true
  | _ => false

/-- Model of `Series.astype(str)` on one cell: a missing value becomes the
literal string "nan" (Python `str(np.nan)`), a string stays itself, numbers
and dates render to their decimal / ISO text. -/
def astypeStr : Cell → String
  | Cell.na => "nan"
  | Cell.str s => s
  | Cell.num n => toString n
  | Cell.date y m d => toString y ++ "-" ++ toString m ++ "-" ++ toString d

/-- The per-cell effect of the two categorical-column lines
`df[col].astype(str).replace(r'^\s*$', np.nan, regex=True)` followed by
`.apply(lambda x: x.strip().title() if isinstance(x, str) else x)`. -/
def catClean (c : Cell) : Cell :=
  if wsOnly (astypeStr c) then Cell.na else Cell.str (pyTitle (pyStrip (astypeStr c)))

/-- Decimal value of a digit list. -/
def digitsVal (l : List Char) : Nat :=
  l.foldl (fun a c => a * 10 + (c.toNat - 48)) 0

/-- Parse an optionally signed integer literal, the integer fragment of the
parser behind `pd.to_numeric` (float literals are outside the modelled
fragment; none occur in the dataset's `release_year`). -/
def parseIntList : List Char → Option Int
  | '-' :: ds => if ds ≠ [] ∧ ds.all Char.isDigit then some (-(digitsVal ds : Int)) else none
  | '+' :: ds => if ds ≠ [] ∧ ds.all Char.isDigit then some ((digitsVal ds : Int)) else none
  | ds => if ds ≠ [] ∧ ds.all Char.isDigit then some ((digitsVal ds : Int)) else none

/-- `pd.to_numeric(x, errors='coerce')` on one cell: numbers pass through,
parsable strings become numbers, everything else coerces to missing. -/
def toNumeric : Cell → Cell
  | Cell.na => Cell.na
  | Cell.num n => Cell.num n
  | Cell.str s =>
    match parseIntList (stripList s.data) with
    | some n => Cell.num n
    | none => Cell.na
  | Cell.date _ _ _ => Cell.na

/-- Split a character list at '-' separators. -/
def splitDash : List Char → List (List Char)
  | [] => [[]]
  | c :: cs =>
    match splitDash cs with
    | [] => [[]]
    | g :: gs => if c = '-' then [] :: g :: gs else (c :: g) :: gs

/-- Parse an ISO `year-month-day` date, the format of `date_added` in the
normalized data; this models the fragment of the `pd.to_datetime` parser the
pipeline relies on.  Anything else fails (and will coerce to missing). -/
def parseDateList (l : List Char) : Cell :=
  match splitDash l with
  | [ys, ms, ds] =>
    if ys ≠ [] ∧ ys.all Char.isDigit ∧ ms ≠ [] ∧ ms.all Char.isDigit
        ∧ ds ≠ [] ∧ ds.all Char.isDigit then
      if 1 ≤ digitsVal ms ∧ digitsVal ms ≤ 12 ∧ 1 ≤ digitsVal ds ∧ digitsVal ds ≤ 31 then
        Cell.date (digitsVal ys) (digitsVal ms) (digitsVal ds)
      else Cell.na
    else Cell.na
  | _ => Cell.na

/-- `pd.to_datetime(x, errors='coerce')` on one cell: dates pass through,
parsable strings become dates, everything else coerces to missing. -/
def toDatetime : Cell → Cell
  | Cell.na => Cell.na
  | Cell.date y m d => Cell.date y m d
  | Cell.str s => parseDateList (stripList s.data)
  | Cell.num _ => Cell.na

/-- `Series.dt.year` on one cell: the year of a date, missing otherwise. -/
def dtYear : Cell → Cell
  | Cell.date y _ _ => Cell.num (Int.ofNat y)
  | _ => Cell.na

/-- The per-cell effect of the final sweep
`df.replace(r'^\s*$', np.nan, regex=True)`: a whitespace-only string becomes
missing, everything else is untouched (the regex only applies to strings). -/
def blankToNa : Cell → Cell
  | Cell.str s => if wsOnly s then Cell.na else Cell.str s
  | c => c

/-! ### Rows and tables -/

/-- A row: column name to cell, in column order. -/
abbrev Row := List (String × Cell)

/-- A dataframe: ordered column names and rows. -/
structure Table where
  cols : List String
  rows : List Row
deriving DecidableEq, Repr

/-- The entry of a row at a column, if present (first matching entry). -/
def findCol : Row → String → Option (String × Cell)
  | [], _ => none
  | (k, w) :: rest, c => if k == c then some (k, w) else findCol rest c

/-- Read a cell of a row by column name (first matching entry). -/
def getCell (r : Row) (c : String) : Cell :=
  match findCol r c with
  | some p => p.2
  | none => Cell.na

/-- Write a cell of a row by column name, appending a new entry at the end
when the column is absent (pandas puts a new column last). -/
def setCell : Row → String → Cell → Row
  | [], c, v => [(c, v)]
  | (k, w) :: rest, c, v =>
    if k == c then (c, v) :: rest else (k, w) :: setCell rest c v

/-- Column assignment `df[c] = f(row)`: a new column is appended at the end,
an existing one is overwritten in place. -/
def Table.setCol (t : Table) (c : String) (f : Row → Cell) : Table :=
  { cols := if t.cols.contains c then t.cols else t.cols ++ [c],
    rows := t.rows.map (fun r => setCell r c (f r)) }

/-! ### The cleaning pipeline, one definition per line of the script -/

/-- `df.drop_duplicates()` keeping the first occurrence, via a seen set. -/
def dedupAux (seen : List Row) : List Row → List Row
  | [] => []
  | r :: rs => if seen.contains r then dedupAux seen rs else r :: dedupAux (r :: seen) rs

/-- `df = df.drop_duplicates()`. -/
def dropDuplicates (l : List Row) : List Row := dedupAux [] l

/-- `df = df.drop_duplicates()` at table level. -/
def dropDuplicatesT (t : Table) : Table :=
  { t with rows := dropDuplicates t.rows }

/-- The row predicate of `df.dropna(subset=['title', 'type', 'release_year'])`. -/
def essentialPred (r : Row) : Bool :=
  !(isNa (getCell r "title")) && !(isNa (getCell r "type")) && !(isNa (getCell r "release_year"))

/-- `df = df.dropna(subset=['title', 'type', 'release_year'])`. -/
def dropMissingEssentials (t : Table) : Table :=
  { t with rows := t.rows.filter essentialPred }

/-- `cat_cols = ['type', 'rating', 'country', 'director', 'cast', 'listed_in']`. -/
def catCols : List String :=
  ["type", "rating", "country", "director", "cast", "listed_in"]

/-- One iteration of the categorical-column loop, guarded by
`if col in df.columns`. -/
def cleanCatStep (acc : Table) (col : String) : Table :=
  if acc.cols.contains col then acc.setCol col (fun r => catClean (getCell r col)) else acc

/-- The whole categorical-column loop. -/
def cleanCatTable (t : Table) : Table :=
  List.foldl cleanCatStep t catCols

/-- `df['release_year'] = pd.to_numeric(df['release_year'], errors='coerce')`. -/
def coerceReleaseYear (t : Table) : Table :=
  t.setCol "release_year" (fun r => toNumeric (getCell r "release_year"))

/-- `df['date_added'] = pd.to_datetime(df['date_added'], errors='coerce')`.
The source reads `df['date_added']` unguarded, so it presumes the column is
present (on a table without it the script raises KeyError and writes no
output); the model is total, so statements about tables outside the expected
schema are not claims about the script. -/
def coerceDateAdded (t : Table) : Table :=
  t.setCol "date_added" (fun r => toDatetime (getCell r "date_added"))

/-- `df['year_added'] = df['date_added'].dt.year`. -/
def deriveYearAdded (t : Table) : Table :=
  t.setCol "year_added" (fun r => dtYear (getCell r "date_added"))

/-- `df = df.replace(r'^\s*$', np.nan, regex=True)` over the whole table. -/
def replaceBlanks (t : Table) : Table :=
  { t with rows := t.rows.map (fun r => r.map (fun p => (p.1, blankToNa p.2))) }

/-- The full pipeline of `Data cleaning.py`, in source order; the final
`to_csv(index=False)` emits exactly this table (column order kept, no
synthetic index column). -/
def normalizeTable (t : Table) : Table :=
  replaceBlanks (deriveYearAdded (coerceDateAdded (coerceReleaseYear
    (cleanCatTable (dropMissingEssentials (dropDuplicatesT t))))))

/-! ### Row-level view of the pipeline -/

/-- The rows that survive the two dropping steps; all later steps are
per-cell edits that keep every row. -/
def survivors (t : Table) : List Row :=
  (dropDuplicates t.rows).filter essentialPred

/-- One iteration of the categorical loop on a single row. -/
def cleanCatRowStep (cols : List String) (r : Row) (col : String) : Row :=
  if cols.contains col then setCell r col (catClean (getCell r col)) else r

/-- The categorical loop on a single row. -/
def catCellFold (cols : List String) (r : Row) : Row :=
  List.foldl (cleanCatRowStep cols) r catCols

/-- The final blank sweep on a single row. -/
def blankRow (r : Row) : Row :=
  r.map (fun p => (p.1, blankToNa p.2))

/-- The release-year coercion on a single row. -/
def ryStep (r : Row) : Row :=
  setCell r "release_year" (toNumeric (getCell r "release_year"))

/-- The date-added coercion on a single row. -/
def daStep (r : Row) : Row :=
  setCell r "date_added" (toDatetime (getCell r "date_added"))

/-- The year-added derivation on a single row. -/
def yaStep (r : Row) : Row :=
  setCell r "year_added" (dtYear (getCell r "date_added"))

/-- What the pipeline does to one surviving row. -/
def rowTransform (cols : List String) (r : Row) : Row :=
  blankRow (yaStep (daStep (ryStep (catCellFold cols r))))


/-! ### Row lookup toolkit -/

theorem findCol_key (r : Row) (c : String) (p : String × Cell)
    (h : findCol r c = some p) : p.1 = c := by
  induction r with
  | nil => simp [findCol] at h
  | cons q rest ih =>
    obtain ⟨k, w⟩ := q
    rw [findCol] at h
    by_cases hk : k = c
    · rw [if_pos (by simp [hk])] at h
      cases h
      exact hk
    · rw [if_neg (by simp [hk])] at h
      exact ih h

theorem findCol_setCell_self (r : Row) (c : String) (v : Cell) :
    findCol (setCell r c v) c = some (c, v) := by
  induction r with
  | nil => simp [setCell, findCol]
  | cons q rest ih =>
    obtain ⟨k, w⟩ := q
    by_cases hk : k = c
    · subst hk
      rw [setCell, if_pos (by simp)]
      simp [findCol]
    · rw [setCell, if_neg (by simp [hk])]
      rw [findCol, if_neg (by simp [hk])]
      exact ih

theorem findCol_setCell_ne (r : Row) (c c' : String) (v : Cell) (h : c' ≠ c) :
    findCol (setCell r c v) c' = findCol r c' := by
  induction r with
  | nil =>
    rw [setCell, findCol, findCol]
    rw [if_neg (by simp; exact fun e => h e.symm)]
    rfl
  | cons q rest ih =>
    obtain ⟨k, w⟩ := q
    by_cases hk : k = c
    · subst hk
      rw [setCell, if_pos (by simp)]
      rw [findCol, findCol]
      rw [if_neg (by simp; exact fun e => h e.symm)]
      rw [if_neg (by simp; exact fun e => h e.symm)]
    · rw [setCell, if_neg (by simp [hk])]
      by_cases hkc : k = c'
      · subst hkc
        rw [findCol, if_pos (by simp), findCol, if_pos (by simp)]
      · rw [findCol, if_neg (by simp [hkc]), findCol, if_neg (by simp [hkc])]
        exact ih

theorem getCell_setCell_self (r : Row) (c : String) (v : Cell) :
    getCell (setCell r c v) c = v := by
  rw [getCell, findCol_setCell_self]

theorem getCell_setCell_ne (r : Row) (c c' : String) (v : Cell) (h : c' ≠ c) :
    getCell (setCell r c v) c' = getCell r c' := by
  rw [getCell, findCol_setCell_ne r c c' v h, getCell]

theorem setCell_of_findCol (r : Row) (c : String) (v : Cell)
    (h : findCol r c = some (c, v)) : setCell r c v = r := by
  induction r with
  | nil => simp [findCol] at h
  | cons q rest ih =>
    obtain ⟨k, w⟩ := q
    by_cases hk : k = c
    · subst hk
      rw [findCol, if_pos (by simp)] at h
      simp only [Option.some.injEq, Prod.mk.injEq] at h
      rw [setCell, if_pos (by simp)]
      rw [h.2]
    · rw [findCol, if_neg (by simp [hk])] at h
      rw [setCell, if_neg (by simp [hk])]
      rw [ih h]

theorem findCol_blankRow (r : Row) (c : String) :
    findCol (blankRow r) c = (findCol r c).map (fun p => (p.1, blankToNa p.2)) := by
  induction r with
  | nil => simp [blankRow, findCol]
  | cons q rest ih =>
    obtain ⟨k, w⟩ := q
    rw [blankRow, List.map_cons]
    by_cases hk : k = c
    · subst hk
      rw [findCol, findCol]
      rw [if_pos (by simp), if_pos (by simp)]
      rfl
    · rw [findCol, findCol]
      rw [if_neg (by simp [hk]), if_neg (by simp [hk])]
      exact ih

theorem getCell_blankRow (r : Row) (c : String) :
    getCell (blankRow r) c = blankToNa (getCell r c) := by
  rw [getCell, getCell, findCol_blankRow]
  cases findCol r c with
  | none => rfl
  | some p => rfl

theorem blankToNa_idem (c : Cell) : blankToNa (blankToNa c) = blankToNa c := by
  cases c with
  | str s =>
    by_cases h : wsOnly s = true
    · simp [blankToNa, h]
    · simp [blankToNa, h]
  | na => rfl
  | num n => rfl
  | date y m d => rfl

theorem blankRow_idem (r : Row) : blankRow (blankRow r) = blankRow r := by
  unfold blankRow
  rw [List.map_map]
  apply List.map_congr_left
  intro p _
  simp only [Function.comp_apply, blankToNa_idem]

/-! ### Categorical fold lemmas -/

theorem setCol_cols (t : Table) (c : String) (f : Row → Cell) :
    (t.setCol c f).cols = if t.cols.contains c then t.cols else t.cols ++ [c] := rfl

theorem setCol_rows (t : Table) (c : String) (f : Row → Cell) :
    (t.setCol c f).rows = t.rows.map (fun r => setCell r c (f r)) := rfl

theorem findCol_foldRow_notMem (cols : List String) (L : List String) (r : Row)
    (col : String) (h : col ∉ L) :
    findCol (List.foldl (cleanCatRowStep cols) r L) col = findCol r col := by
  induction L generalizing r with
  | nil => rfl
  | cons c L ih =>
    have h1 : col ∉ L := fun hm => h (List.mem_cons_of_mem c hm)
    have hne : col ≠ c := fun e => h (by rw [e]; exact List.mem_cons_self c L)
    rw [List.foldl_cons, ih (cleanCatRowStep cols r c) h1]
    rw [cleanCatRowStep]
    by_cases hc : cols.contains c = true
    · rw [if_pos hc]
      exact findCol_setCell_ne r c col _ hne
    · rw [if_neg hc]

theorem findCol_foldRow_nocontains (cols : List String) (L : List String) (r : Row)
    (col : String) (h : cols.contains col = false) :
    findCol (List.foldl (cleanCatRowStep cols) r L) col = findCol r col := by
  induction L generalizing r with
  | nil => rfl
  | cons c L ih =>
    rw [List.foldl_cons, ih (cleanCatRowStep cols r c)]
    rw [cleanCatRowStep]
    by_cases hc : cols.contains c = true
    · rw [if_pos hc]
      apply findCol_setCell_ne
      intro e
      rw [e, hc] at h
      cases h
    · rw [if_neg hc]

theorem getCell_foldRow_step_ne (cols : List String) (r : Row) (c col : String)
    (hne : col ≠ c) :
    getCell (cleanCatRowStep cols r c) col = getCell r col := by
  rw [cleanCatRowStep]
  by_cases hc : cols.contains c = true
  · rw [if_pos hc]
    exact getCell_setCell_ne r c col _ hne
  · rw [if_neg hc]

theorem findCol_foldRow_mem (cols : List String) (L : List String) (r : Row)
    (col : String) (hnd : L.Nodup) (hmem : col ∈ L) (hc : cols.contains col = true) :
    findCol (List.foldl (cleanCatRowStep cols) r L) col
      = some (col, catClean (getCell r col)) := by
  induction L generalizing r with
  | nil => cases hmem
  | cons c L ih =>
    rw [List.foldl_cons]
    by_cases he : col = c
    · subst he
      have hnotin : col ∉ L := (List.nodup_cons.mp hnd).1
      rw [findCol_foldRow_notMem cols L _ col hnotin]
      rw [cleanCatRowStep, if_pos hc]
      exact findCol_setCell_self r col _
    · have hmem2 : col ∈ L := (List.mem_cons.mp hmem).resolve_left he
      have hnd2 : L.Nodup := (List.nodup_cons.mp hnd).2
      rw [ih (cleanCatRowStep cols r c) hnd2 hmem2]
      rw [getCell_foldRow_step_ne cols r c col he]

theorem getCell_catFold_mem (cols : List String) (r : Row) (col : String)
    (hmem : col ∈ catCols) (hc : cols.contains col = true) :
    getCell (catCellFold cols r) col = catClean (getCell r col) := by
  rw [catCellFold, getCell, findCol_foldRow_mem cols catCols r col (by decide) hmem hc]

theorem getCell_catFold_notMem (cols : List String) (r : Row) (col : String)
    (h : col ∉ catCols) :
    getCell (catCellFold cols r) col = getCell r col := by
  rw [catCellFold, getCell, findCol_foldRow_notMem cols catCols r col h, getCell]

/-! ### Duplicate-dropping lemmas -/

theorem row_contains_iff (l : List Row) (a : Row) : l.contains a = true ↔ a ∈ l :=
  List.elem_iff

theorem mem_dedupAux (seen l : List Row) (a : Row) :
    a ∈ dedupAux seen l ↔ a ∈ l ∧ a ∉ seen := by
  induction l generalizing seen with
  | nil => simp [dedupAux]
  | cons r rs ih =>
    rw [dedupAux]
    by_cases h : seen.contains r = true
    · rw [if_pos h, ih seen]
      have hr : r ∈ seen := (row_contains_iff seen r).mp h
      constructor
      · rintro ⟨h1, h2⟩
        exact ⟨List.mem_cons_of_mem r h1, h2⟩
      · rintro ⟨h1, h2⟩
        cases List.mem_cons.mp h1 with
        | inl he => exact absurd (he ▸ hr) h2
        | inr hm => exact ⟨hm, h2⟩
    · rw [if_neg h]
      have hr : r ∉ seen := fun hm => h ((row_contains_iff seen r).mpr hm)
      constructor
      · intro hmem
        cases List.mem_cons.mp hmem with
        | inl he => exact ⟨he ▸ List.mem_cons_self r rs, he ▸ hr⟩
        | inr hm =>
          obtain ⟨h1, h2⟩ := (ih (r :: seen)).mp hm
          have h3 : a ∉ seen := fun hs => h2 (List.mem_cons_of_mem r hs)
          exact ⟨List.mem_cons_of_mem r h1, h3⟩
      · rintro ⟨h1, h2⟩
        cases List.mem_cons.mp h1 with
        | inl he => exact he ▸ List.mem_cons_self r _
        | inr hm =>
          by_cases har : a = r
          · exact har ▸ List.mem_cons_self r _
          · apply List.mem_cons_of_mem
            exact (ih (r :: seen)).mpr ⟨hm, by
              intro hs
              cases List.mem_cons.mp hs with
              | inl he => exact har he
              | inr hss => exact h2 hss⟩

theorem mem_dropDuplicates (l : List Row) (a : Row) :
    a ∈ dropDuplicates l ↔ a ∈ l := by
  rw [dropDuplicates, mem_dedupAux]
  simp

theorem dedupAux_eq_self (l : List Row) (seen : List Row)
    (hnd : l.Nodup) (hs : ∀ a ∈ l, a ∉ seen) : dedupAux seen l = l := by
  induction l generalizing seen with
  | nil => rfl
  | cons r rs ih =>
    rw [dedupAux]
    have hr : r ∉ seen := hs r (List.mem_cons_self r rs)
    rw [if_neg (fun hc => hr ((row_contains_iff seen r).mp hc))]
    have hnd2 := List.nodup_cons.mp hnd
    rw [ih (r :: seen) hnd2.2]
    intro a ha hmem
    cases List.mem_cons.mp hmem with
    | inl he => exact hnd2.1 (he ▸ ha)
    | inr hss => exact hs a (List.mem_cons_of_mem r ha) hss

theorem dropDuplicates_eq_self (l : List Row) (hnd : l.Nodup) :
    dropDuplicates l = l :=
  dedupAux_eq_self l [] hnd (fun a _ h => by cases h)

/-! ### Structural lemmas for the pipeline -/

theorem cleanCat_fold (L : List String) (t : Table) :
    (List.foldl cleanCatStep t L).cols = t.cols ∧
    (List.foldl cleanCatStep t L).rows
      = t.rows.map (fun r => List.foldl (cleanCatRowStep t.cols) r L) := by
  induction L generalizing t with
  | nil =>
    refine ⟨rfl, ?_⟩
    simp
  | cons c L ih =>
    rw [List.foldl_cons]
    by_cases hc : t.cols.contains c = true
    · have hstep : cleanCatStep t c = Table.setCol t c (fun r => catClean (getCell r c)) := by
        rw [cleanCatStep, if_pos hc]
      have hcols : (Table.setCol t c (fun r => catClean (getCell r c))).cols = t.cols := by
        rw [setCol_cols, if_pos hc]
      obtain ⟨ihc, ihr⟩ := ih (Table.setCol t c (fun r => catClean (getCell r c)))
      refine ⟨?_, ?_⟩
      · rw [hstep, ihc, hcols]
      · rw [hstep, ihr, hcols, setCol_rows, List.map_map]
        apply List.map_congr_left
        intro r _
        rw [List.foldl_cons]
        simp only [Function.comp_apply]
        congr 1
        rw [cleanCatRowStep, if_pos hc]
    · have hstep : cleanCatStep t c = t := by rw [cleanCatStep, if_neg hc]
      obtain ⟨ihc, ihr⟩ := ih t
      refine ⟨?_, ?_⟩
      · rw [hstep, ihc]
      · rw [hstep, ihr]
        apply List.map_congr_left
        intro r _
        rw [List.foldl_cons]
        congr 1
        rw [cleanCatRowStep, if_neg hc]

/-- `if absent then append` on the column list. -/
def appendIfAbsent (cols : List String) (c : String) : List String :=
  if cols.contains c then cols else cols ++ [c]

theorem dropDuplicatesT_cols (t : Table) : (dropDuplicatesT t).cols = t.cols := rfl

theorem dropMissingEssentials_cols (t : Table) :
    (dropMissingEssentials t).cols = t.cols := rfl

theorem cleanCatTable_cols (t : Table) : (cleanCatTable t).cols = t.cols :=
  (cleanCat_fold catCols t).1

theorem cleanCatTable_rows (t : Table) :
    (cleanCatTable t).rows = t.rows.map (catCellFold t.cols) :=
  (cleanCat_fold catCols t).2

theorem coerceReleaseYear_cols (t : Table) :
    (coerceReleaseYear t).cols = appendIfAbsent t.cols "release_year" := rfl

theorem coerceDateAdded_cols (t : Table) :
    (coerceDateAdded t).cols = appendIfAbsent t.cols "date_added" := rfl

theorem deriveYearAdded_cols (t : Table) :
    (deriveYearAdded t).cols = appendIfAbsent t.cols "year_added" := rfl

theorem replaceBlanks_cols (t : Table) : (replaceBlanks t).cols = t.cols := rfl

theorem replaceBlanks_rows (t : Table) :
    (replaceBlanks t).rows = t.rows.map blankRow := rfl

theorem normalizeTable_cols (t : Table) :
    (normalizeTable t).cols =
      appendIfAbsent (appendIfAbsent (appendIfAbsent t.cols "release_year")
        "date_added") "year_added" := by
  rw [normalizeTable, replaceBlanks_cols, deriveYearAdded_cols, coerceDateAdded_cols,
    coerceReleaseYear_cols, cleanCatTable_cols, dropMissingEssentials_cols,
    dropDuplicatesT_cols]

theorem normalizeTable_rows (t : Table) :
    (normalizeTable t).rows = (survivors t).map (rowTransform t.cols) := by
  have hbase : (dropMissingEssentials (dropDuplicatesT t)).rows = survivors t := rfl
  have hbcols : (dropMissingEssentials (dropDuplicatesT t)).cols = t.cols := rfl
  rw [normalizeTable, replaceBlanks_rows, deriveYearAdded, coerceDateAdded,
    coerceReleaseYear, setCol_rows, setCol_rows, setCol_rows, cleanCatTable_rows,
    hbase, hbcols, List.map_map, List.map_map, List.map_map, List.map_map]
  apply List.map_congr_left
  intro r _
  rfl

/-! ### Range and idempotence facts for the coercions -/

theorem toNumeric_range (c : Cell) :
    toNumeric c = Cell.na ∨ ∃ n, toNumeric c = Cell.num n := by
  cases c with
  | na => left; rfl
  | num n => right; exact ⟨n, rfl⟩
  | date y m d => left; rfl
  | str s =>
    rw [toNumeric]
    cases parseIntList (stripList s.data) with
    | none => left; rfl
    | some n => right; exact ⟨n, rfl⟩

theorem parseDateList_range (l : List Char) :
    parseDateList l = Cell.na ∨ ∃ y m d, parseDateList l = Cell.date y m d := by
  rw [parseDateList]
  split
  · split
    · split
      · right; exact ⟨_, _, _, rfl⟩
      · left; rfl
    · left; rfl
  · left; rfl

theorem toDatetime_range (c : Cell) :
    toDatetime c = Cell.na ∨ ∃ y m d, toDatetime c = Cell.date y m d := by
  cases c with
  | na => left; rfl
  | num n => left; rfl
  | date y m d => right; exact ⟨y, m, d, rfl⟩
  | str s => exact parseDateList_range (stripList s.data)

theorem dtYear_range (c : Cell) : dtYear c = Cell.na ∨ ∃ n, dtYear c = Cell.num n := by
  cases c with
  | na => left; rfl
  | num n => left; rfl
  | date y m d => right; exact ⟨Int.ofNat y, rfl⟩
  | str s => left; rfl

theorem toNumeric_idem (c : Cell) : toNumeric (toNumeric c) = toNumeric c := by
  cases toNumeric_range c with
  | inl h => rw [h]; rfl
  | inr h => obtain ⟨n, hn⟩ := h; rw [hn]; rfl

theorem toDatetime_idem (c : Cell) : toDatetime (toDatetime c) = toDatetime c := by
  cases toDatetime_range c with
  | inl h => rw [h]; rfl
  | inr h => obtain ⟨y, m, d, hd⟩ := h; rw [hd]; rfl

theorem blankToNa_toNumeric (c : Cell) : blankToNa (toNumeric c) = toNumeric c := by
  cases toNumeric_range c with
  | inl h => rw [h]; rfl
  | inr h => obtain ⟨n, hn⟩ := h; rw [hn]; rfl

theorem blankToNa_toDatetime (c : Cell) : blankToNa (toDatetime c) = toDatetime c := by
  cases toDatetime_range c with
  | inl h => rw [h]; rfl
  | inr h => obtain ⟨y, m, d, hd⟩ := h; rw [hd]; rfl

theorem blankToNa_dtYear (c : Cell) : blankToNa (dtYear c) = dtYear c := by
  cases dtYear_range c with
  | inl h => rw [h]; rfl
  | inr h => obtain ⟨n, hn⟩ := h; rw [hn]; rfl

/-! ### catClean facts -/

theorem catClean_of_ws (c : Cell) (h : wsOnly (astypeStr c) = true) :
    catClean c = Cell.na := by
  rw [catClean, if_pos h]

theorem catClean_of_not_ws (c : Cell) (h : wsOnly (astypeStr c) = false) :
    catClean c = Cell.str (pyTitle (pyStrip (astypeStr c))) := by
  rw [catClean, if_neg (by rw [h]; exact Bool.false_ne_true)]

theorem wsOnly_title_strip (s : String) (h : wsOnly s = false) :
    wsOnly (pyTitle (pyStrip s)) = false := by
  show wsOnlyL (titleList (stripList s.data)) = false
  rw [wsOnly_title]
  exact wsOnly_strip s.data h

theorem blank_catClean (c : Cell) : blankToNa (catClean c) = catClean c := by
  by_cases h : wsOnly (astypeStr c) = true
  · rw [catClean_of_ws c h]; rfl
  · have h2 : wsOnly (astypeStr c) = false := by
      cases hb : wsOnly (astypeStr c) with
      | true => exact absurd hb h
      | false => rfl
    rw [catClean_of_not_ws c h2, blankToNa]
    rw [wsOnly_title_strip _ h2]
    rfl

theorem strip_title_strip_str (s : String) :
    pyStrip (pyTitle (pyStrip s)) = pyTitle (pyStrip s) := by
  show String.mk (stripList (titleList (stripList s.data)))
      = String.mk (titleList (stripList s.data))
  rw [strip_title_strip]

theorem title_title_strip_str (s : String) :
    pyTitle (pyTitle (pyStrip s)) = pyTitle (pyStrip s) := by
  show String.mk (titleList (titleList (stripList s.data)))
      = String.mk (titleList (stripList s.data))
  rw [titleList_idem]

theorem catClean_idem (c : Cell) (h : catClean c ≠ Cell.na) :
    catClean (catClean c) = catClean c := by
  have h2 : wsOnly (astypeStr c) = false := by
    cases hb : wsOnly (astypeStr c) with
    | true => exact absurd (catClean_of_ws c hb) h
    | false => rfl
  rw [catClean_of_not_ws c h2]
  have h3 : wsOnly (astypeStr (Cell.str (pyTitle (pyStrip (astypeStr c))))) = false := by
    show wsOnly (pyTitle (pyStrip (astypeStr c))) = false
    exact wsOnly_title_strip _ h2
  rw [catClean_of_not_ws _ h3]
  show Cell.str (pyTitle (pyStrip (pyTitle (pyStrip (astypeStr c)))))
      = Cell.str (pyTitle (pyStrip (astypeStr c)))
  rw [strip_title_strip_str, title_title_strip_str]

/-! ### What the row transform does at each column -/

theorem getCell_rowTransform_ry (cols : List String) (r : Row) :
    getCell (rowTransform cols r) "release_year" = toNumeric (getCell r "release_year") := by
  rw [rowTransform, getCell_blankRow, yaStep, getCell_setCell_ne _ _ _ _ (by decide),
    daStep, getCell_setCell_ne _ _ _ _ (by decide), ryStep, getCell_setCell_self,
    getCell_catFold_notMem cols r _ (by decide), blankToNa_toNumeric]

theorem getCell_rowTransform_da (cols : List String) (r : Row) :
    getCell (rowTransform cols r) "date_added" = toDatetime (getCell r "date_added") := by
  rw [rowTransform, getCell_blankRow, yaStep, getCell_setCell_ne _ _ _ _ (by decide),
    daStep, getCell_setCell_self, ryStep, getCell_setCell_ne _ _ _ _ (by decide),
    getCell_catFold_notMem cols r _ (by decide), blankToNa_toDatetime]

theorem getCell_rowTransform_ya (cols : List String) (r : Row) :
    getCell (rowTransform cols r) "year_added"
      = dtYear (toDatetime (getCell r "date_added")) := by
  rw [rowTransform, getCell_blankRow, yaStep, getCell_setCell_self,
    daStep, getCell_setCell_self, ryStep, getCell_setCell_ne _ _ _ _ (by decide),
    getCell_catFold_notMem cols r _ (by decide), blankToNa_dtYear]

theorem getCell_rowTransform_cat (cols : List String) (r : Row) (col : String)
    (hmem : col ∈ catCols) (hc : cols.contains col = true) :
    getCell (rowTransform cols r) col = catClean (getCell r col) := by
  have h1 : col ≠ "release_year" := by
    intro e; rw [e] at hmem; exact absurd hmem (by decide)
  have h2 : col ≠ "date_added" := by
    intro e; rw [e] at hmem; exact absurd hmem (by decide)
  have h3 : col ≠ "year_added" := by
    intro e; rw [e] at hmem; exact absurd hmem (by decide)
  rw [rowTransform, getCell_blankRow, yaStep, getCell_setCell_ne _ _ _ _ h3,
    daStep, getCell_setCell_ne _ _ _ _ h2, ryStep, getCell_setCell_ne _ _ _ _ h1,
    getCell_catFold_mem cols r col hmem hc, blank_catClean]

theorem getCell_rowTransform_other (cols : List String) (r : Row) (col : String)
    (h0 : col ∉ catCols) (h1 : col ≠ "release_year") (h2 : col ≠ "date_added")
    (h3 : col ≠ "year_added") :
    getCell (rowTransform cols r) col = blankToNa (getCell r col) := by
  rw [rowTransform, getCell_blankRow, yaStep, getCell_setCell_ne _ _ _ _ h3,
    daStep, getCell_setCell_ne _ _ _ _ h2, ryStep, getCell_setCell_ne _ _ _ _ h1,
    getCell_catFold_notMem cols r _ h0]

theorem findCol_catFold_mem (cols : List String) (r : Row) (col : String)
    (hmem : col ∈ catCols) (hc : cols.contains col = true) :
    findCol (catCellFold cols r) col = some (col, catClean (getCell r col)) :=
  findCol_foldRow_mem cols catCols r col (by decide) hmem hc

theorem findCol_rowTransform_ry (cols : List String) (r : Row) :
    findCol (rowTransform cols r) "release_year"
      = some ("release_year", toNumeric (getCell r "release_year")) := by
  rw [rowTransform, findCol_blankRow, yaStep, findCol_setCell_ne _ _ _ _ (by decide),
    daStep, findCol_setCell_ne _ _ _ _ (by decide), ryStep, findCol_setCell_self,
    getCell_catFold_notMem cols r _ (by decide)]
  show some ("release_year", blankToNa (toNumeric (getCell r "release_year"))) = _
  rw [blankToNa_toNumeric]

theorem findCol_rowTransform_da (cols : List String) (r : Row) :
    findCol (rowTransform cols r) "date_added"
      = some ("date_added", toDatetime (getCell r "date_added")) := by
  rw [rowTransform, findCol_blankRow, yaStep, findCol_setCell_ne _ _ _ _ (by decide),
    daStep, findCol_setCell_self, ryStep, getCell_setCell_ne _ _ _ _ (by decide),
    getCell_catFold_notMem cols r _ (by decide)]
  show some ("date_added", blankToNa (toDatetime (getCell r "date_added"))) = _
  rw [blankToNa_toDatetime]

theorem findCol_rowTransform_ya (cols : List String) (r : Row) :
    findCol (rowTransform cols r) "year_added"
      = some ("year_added", dtYear (toDatetime (getCell r "date_added"))) := by
  rw [rowTransform, findCol_blankRow, yaStep, findCol_setCell_self,
    daStep, getCell_setCell_self, ryStep, getCell_setCell_ne _ _ _ _ (by decide),
    getCell_catFold_notMem cols r _ (by decide)]
  show some ("year_added", blankToNa (dtYear (toDatetime (getCell r "date_added")))) = _
  rw [blankToNa_dtYear]

theorem findCol_rowTransform_cat (cols : List String) (r : Row) (col : String)
    (hmem : col ∈ catCols) (hc : cols.contains col = true) :
    findCol (rowTransform cols r) col = some (col, catClean (getCell r col)) := by
  have h1 : col ≠ "release_year" := by
    intro e; rw [e] at hmem; exact absurd hmem (by decide)
  have h2 : col ≠ "date_added" := by
    intro e; rw [e] at hmem; exact absurd hmem (by decide)
  have h3 : col ≠ "year_added" := by
    intro e; rw [e] at hmem; exact absurd hmem (by decide)
  rw [rowTransform, findCol_blankRow, yaStep, findCol_setCell_ne _ _ _ _ h3,
    daStep, findCol_setCell_ne _ _ _ _ h2, ryStep, findCol_setCell_ne _ _ _ _ h1,
    findCol_catFold_mem cols r col hmem hc]
  show some (col, blankToNa (catClean (getCell r col))) = _
  rw [blank_catClean]

theorem rowTransform_mem (t : Table) (r : Row) (hr : r ∈ survivors t) :
    rowTransform t.cols r ∈ (normalizeTable t).rows := by
  rw [normalizeTable_rows]
  exact List.mem_map_of_mem (rowTransform t.cols) hr

/-! ### Survivors -/

theorem mem_survivors_iff (t : Table) (r : Row) :
    r ∈ survivors t ↔ r ∈ t.rows ∧ essentialPred r = true := by
  rw [survivors, List.mem_filter, mem_dropDuplicates]

theorem essentialPred_iff (r : Row) :
    essentialPred r = true ↔
      isNa (getCell r "title") = false ∧ isNa (getCell r "type") = false ∧
      isNa (getCell r "release_year") = false := by
  rw [essentialPred]
  simp only [Bool.and_eq_true, Bool.not_eq_true']
  tauto

theorem getCell_catFold_nocontains (cols : List String) (r : Row) (col : String)
    (h : cols.contains col = false) :
    getCell (catCellFold cols r) col = getCell r col := by
  rw [catCellFold, getCell, findCol_foldRow_nocontains cols catCols r col h, getCell]

theorem getCell_rowTransform_cat_nocontains (cols : List String) (r : Row) (col : String)
    (h : cols.contains col = false) (h1 : col ≠ "release_year")
    (h2 : col ≠ "date_added") (h3 : col ≠ "year_added") :
    getCell (rowTransform cols r) col = blankToNa (getCell r col) := by
  rw [rowTransform, getCell_blankRow, yaStep, getCell_setCell_ne _ _ _ _ h3,
    daStep, getCell_setCell_ne _ _ _ _ h2, ryStep, getCell_setCell_ne _ _ _ _ h1,
    getCell_catFold_nocontains cols r _ h]

/-- A cell that is a whitespace-only string. -/
def wsStrCell : Cell → Bool
  | Cell.str s => wsOnly s
  | _ => false

theorem blankToNa_str (s : String) :
    blankToNa (Cell.str s) = if wsOnly s then Cell.na else Cell.str s := rfl

/-! ### Example tables used as witnesses and counterexamples -/

/-- A row whose release_year is the non-numeric string "abc". -/
def exRowAbc : Row :=
  [("title", Cell.str "A"), ("type", Cell.str "Movie"),
   ("release_year", Cell.str "abc"), ("date_added", Cell.na)]

/-- A row whose release_year cell is completely absent (empty). -/
def exRowNoYear : Row :=
  [("title", Cell.str "B"), ("type", Cell.str "Movie"),
   ("release_year", Cell.na), ("date_added", Cell.na)]

/-- A single-row table with a non-numeric release_year. -/
def exTableAbc : Table :=
  ⟨["title", "type", "release_year", "date_added"], [exRowAbc]⟩

/-- A table with one "abc" release_year row and one empty release_year row. -/
def exTableC2 : Table :=
  ⟨["title", "type", "release_year", "date_added"], [exRowAbc, exRowNoYear]⟩

/-- A fully well-formed row: nothing missing, numeric year, ISO date. -/
def exRowClean : Row :=
  [("title", Cell.str "A"), ("type", Cell.str "Movie"),
   ("release_year", Cell.str "2020"), ("date_added", Cell.str "2021-03-15"),
   ("rating", Cell.str " pg ")]

/-- A single clean row table. -/
def exTableClean : Table :=
  ⟨["title", "type", "release_year", "date_added", "rating"], [exRowClean]⟩

/-! ### Claim C1 -/

/-- C1, as stated, is false: a row whose release_year is the present but
non-numeric string "abc" survives the dropna step and is then coerced to a
missing release_year, so the output of the normalizer contains a row with
missing release_year. -/
theorem c1_counterexample :
    ¬ ((normalizeTable exTableAbc).rows.all (fun r =>
        !(isNa (getCell r "title")) && !(isNa (getCell r "type"))
          && !(isNa (getCell r "release_year"))) = true) := by
  decide

/-- C1 (amended): for every input table in which no title cell is a
whitespace-only string, every type cell has non-whitespace string form (or is
missing), and every release_year cell is numeric (or is missing), every row of
the normalizer's output has a non-missing title, a non-missing type, and a
non-missing release_year.  (The original claim fails exactly when a present
release_year fails numeric coercion, or a present title or type is
whitespace-only, which the final blank sweep or the categorical cleaning turns
into missing after the dropna step has already run.) -/
theorem c1_output_essentials (t : Table)
    (h : ∀ r ∈ t.rows,
      wsStrCell (getCell r "title") = false ∧
      (wsOnly (astypeStr (getCell r "type")) = false ∨ isNa (getCell r "type") = true) ∧
      (isNa (toNumeric (getCell r "release_year")) = false ∨
        isNa (getCell r "release_year") = true)) :
    ∀ r2 ∈ (normalizeTable t).rows,
      isNa (getCell r2 "title") = false ∧ isNa (getCell r2 "type") = false ∧
      isNa (getCell r2 "release_year") = false := by
  intro r2 hr2
  rw [normalizeTable_rows] at hr2
  obtain ⟨r, hr, hE⟩ := List.mem_map.mp hr2
  obtain ⟨hrt, hpred⟩ := (mem_survivors_iff t r).mp hr
  obtain ⟨ht1, ht2, ht3⟩ := (essentialPred_iff r).mp hpred
  obtain ⟨hw1, hw2, hw3⟩ := h r hrt
  subst hE
  refine ⟨?_, ?_, ?_⟩
  · rw [getCell_rowTransform_other t.cols r "title" (by decide) (by decide) (by decide)
      (by decide)]
    cases hc : getCell r "title" with
    | na => rw [hc] at ht1; exact absurd ht1 (by decide)
    | str s =>
      rw [hc] at hw1
      rw [blankToNa_str, if_neg (by rw [show wsOnly s = false from hw1]; decide)]
      rfl
    | num n => rfl
    | date y m d => rfl
  · by_cases hcc : t.cols.contains "type" = true
    · rw [getCell_rowTransform_cat t.cols r "type" (by decide) hcc]
      cases hw2 with
      | inl hws => rw [catClean_of_not_ws _ hws]; rfl
      | inr hna => rw [hna] at ht2; cases ht2
    · have hcf : t.cols.contains "type" = false := by
        cases hcb : t.cols.contains "type" with
        | true => exact absurd hcb hcc
        | false => rfl
      rw [getCell_rowTransform_cat_nocontains t.cols r "type" hcf (by decide) (by decide)
        (by decide)]
      cases hc : getCell r "type" with
      | na => rw [hc] at ht2; exact absurd ht2 (by decide)
      | str s =>
        cases hw2 with
        | inl hws =>
          rw [hc] at hws
          rw [blankToNa_str, if_neg (by rw [show wsOnly s = false from hws]; decide)]
          rfl
        | inr hna => rw [hna] at ht2; cases ht2
      | num n => rfl
      | date y m d => rfl
  · rw [getCell_rowTransform_ry]
    cases hw3 with
    | inl hok => exact hok
    | inr hna => rw [hna] at ht3; cases ht3

/-- C1 witness: the amended statement at a concrete clean table. -/
theorem c1_witness :
    isNa (getCell (rowTransform exTableClean.cols exRowClean) "title") = false ∧
    isNa (getCell (rowTransform exTableClean.cols exRowClean) "type") = false ∧
    isNa (getCell (rowTransform exTableClean.cols exRowClean) "release_year") = false :=
  c1_output_essentials exTableClean (by decide)
    (rowTransform exTableClean.cols exRowClean) (by decide)

/-! ### Claim C2 -/

/-- C2: after the duplicate and dropna stages no further row is dropped (the
output rows are exactly the per-cell transforms of the survivors); a row whose
release_year is a present but non-numeric string survives the dropna stage and
appears in the output with release_year missing; a row whose release_year cell
is completely absent is dropped by the dropna stage. -/
theorem c2_coercion_vs_drop (t : Table) (r : Row) (hr : r ∈ t.rows)
    (ht : isNa (getCell r "title") = false) (hy : isNa (getCell r "type") = false) :
    ((normalizeTable t).rows = (survivors t).map (rowTransform t.cols))
    ∧ (∀ s, getCell r "release_year" = Cell.str s → toNumeric (Cell.str s) = Cell.na →
        r ∈ survivors t ∧ rowTransform t.cols r ∈ (normalizeTable t).rows
          ∧ getCell (rowTransform t.cols r) "release_year" = Cell.na)
    ∧ (getCell r "release_year" = Cell.na → r ∉ survivors t) := by
  refine ⟨normalizeTable_rows t, ?_, ?_⟩
  · intro s hs hcoerce
    have hpred : essentialPred r = true :=
      (essentialPred_iff r).mpr ⟨ht, hy, by rw [hs]; rfl⟩
    have hsurv : r ∈ survivors t := (mem_survivors_iff t r).mpr ⟨hr, hpred⟩
    refine ⟨hsurv, rowTransform_mem t r hsurv, ?_⟩
    rw [getCell_rowTransform_ry, hs, hcoerce]
  · intro hna hsurv
    obtain ⟨_, hpred⟩ := (mem_survivors_iff t r).mp hsurv
    obtain ⟨_, _, h3⟩ := (essentialPred_iff r).mp hpred
    rw [hna] at h3
    cases h3

/-- C2 witness: in the two-row table, the "abc" row survives with missing
release_year and the empty-cell row is dropped. -/
theorem c2_witness :
    (exRowAbc ∈ survivors exTableC2 ∧
      rowTransform exTableC2.cols exRowAbc ∈ (normalizeTable exTableC2).rows ∧
      getCell (rowTransform exTableC2.cols exRowAbc) "release_year" = Cell.na)
    ∧ ¬ (exRowNoYear ∈ survivors exTableC2) :=
  ⟨(c2_coercion_vs_drop exTableC2 exRowAbc (by decide) (by decide) (by decide)).2.1
      "abc" (by decide) (by decide),
   (c2_coercion_vs_drop exTableC2 exRowNoYear (by decide) (by decide) (by decide)).2.2
      (by decide)⟩

/-! ### Claim C4 -/

/-- A row whose rating cell is missing. -/
def exRowNaRating : Row :=
  [("title", Cell.str "A"), ("type", Cell.str "Movie"),
   ("release_year", Cell.num 2020), ("rating", Cell.na)]

/-- A single-row table with a missing rating. -/
def exTableC4 : Table :=
  ⟨["title", "type", "release_year", "rating"], [exRowNaRating]⟩

/-- C4: for every categorical column present in the table, a missing input
cell in a row that survives the dropping steps is emitted as the literal
string "Nan", not as a missing value: `astype(str)` renders NaN as "nan",
which `.strip().title()` turns into "Nan", and the final blank sweep does not
touch it. -/
theorem c4_missing_cat_nan (t : Table) (col : String) (hmem : col ∈ catCols)
    (hc : t.cols.contains col = true) (r : Row) (hr : r ∈ survivors t)
    (hna : isNa (getCell r col) = true) :
    getCell (rowTransform t.cols r) col = Cell.str "Nan"
      ∧ rowTransform t.cols r ∈ (normalizeTable t).rows := by
  refine ⟨?_, rowTransform_mem t r hr⟩
  rw [getCell_rowTransform_cat t.cols r col hmem hc]
  have h2 : getCell r col = Cell.na := by
    cases h : getCell r col with
    | na => rfl
    | str s => rw [h] at hna; cases hna
    | num n => rw [h] at hna; cases hna
    | date y m d => rw [h] at hna; cases hna
  rw [h2]
  rfl

/-- C4 witness: the missing rating of the concrete table comes out as "Nan". -/
theorem c4_witness :
    getCell (rowTransform exTableC4.cols exRowNaRating) "rating" = Cell.str "Nan"
      ∧ rowTransform exTableC4.cols exRowNaRating ∈ (normalizeTable exTableC4).rows :=
  c4_missing_cat_nan exTableC4 "rating" (by decide) (by decide) exRowNaRating
    (by decide) (by decide)

/-! ### Claim C5 -/

/-- A row whose rating cell is "  comedy  ". -/
def exRowComedy : Row :=
  [("title", Cell.str "A"), ("type", Cell.str "Movie"),
   ("release_year", Cell.num 2020), ("rating", Cell.str "  comedy  ")]

/-- A single-row table with a padded categorical value. -/
def exTableC5 : Table :=
  ⟨["title", "type", "release_year", "rating"], [exRowComedy]⟩

/-- C5: for every categorical column present in the table and every surviving
row, a purely whitespace string value becomes missing in the output, and every
other string value is stripped of surrounding whitespace and title-cased; in
particular "  comedy  " becomes "Comedy". -/
theorem c5_cat_trim_title (t : Table) (col : String) (hmem : col ∈ catCols)
    (hc : t.cols.contains col = true) (r : Row) (hr : r ∈ survivors t) :
    (∀ s, getCell r col = Cell.str s → wsOnly s = true →
        getCell (rowTransform t.cols r) col = Cell.na)
    ∧ (∀ s, getCell r col = Cell.str s → wsOnly s = false →
        getCell (rowTransform t.cols r) col = Cell.str (pyTitle (pyStrip s)))
    ∧ pyTitle (pyStrip "  comedy  ") = "Comedy"
    ∧ rowTransform t.cols r ∈ (normalizeTable t).rows := by
  refine ⟨?_, ?_, rfl, rowTransform_mem t r hr⟩
  · intro s hs hws
    rw [getCell_rowTransform_cat t.cols r col hmem hc, hs]
    exact catClean_of_ws (Cell.str s) hws
  · intro s hs hws
    rw [getCell_rowTransform_cat t.cols r col hmem hc, hs]
    exact catClean_of_not_ws (Cell.str s) hws

/-- C5 witness: the padded "  comedy  " rating of the concrete table comes
out as "Comedy". -/
theorem c5_witness :
    getCell (rowTransform exTableC5.cols exRowComedy) "rating"
        = Cell.str (pyTitle (pyStrip "  comedy  "))
    ∧ pyTitle (pyStrip "  comedy  ") = "Comedy" :=
  ⟨(c5_cat_trim_title exTableC5 "rating" (by decide) (by decide) exRowComedy
      (by decide)).2.1 "  comedy  " (by decide) (by decide),
   (c5_cat_trim_title exTableC5 "rating" (by decide) (by decide) exRowComedy
      (by decide)).2.2.1⟩

/-! ### Claim C6 -/

/-- C6: in every output row, year_added is the calendar year of the (coerced)
date_added when it parsed, and missing otherwise; date_added itself is always
either missing or a date in the output; "2021-03-15" parses to the date
2021-03-15 and an unparseable string coerces to missing. -/
theorem c6_year_added (t : Table) (r2 : Row) (hr2 : r2 ∈ (normalizeTable t).rows) :
    (∀ y m d, getCell r2 "date_added" = Cell.date y m d →
        getCell r2 "year_added" = Cell.num (Int.ofNat y))
    ∧ (getCell r2 "date_added" = Cell.na → getCell r2 "year_added" = Cell.na)
    ∧ (isNa (getCell r2 "date_added") = true ∨
        ∃ y m d, getCell r2 "date_added" = Cell.date y m d)
    ∧ toDatetime (Cell.str "2021-03-15") = Cell.date 2021 3 15
    ∧ toDatetime (Cell.str "not a date") = Cell.na := by
  rw [normalizeTable_rows] at hr2
  obtain ⟨r, hr, hE⟩ := List.mem_map.mp hr2
  subst hE
  rw [getCell_rowTransform_da, getCell_rowTransform_ya]
  refine ⟨?_, ?_, ?_, rfl, rfl⟩
  · intro y m d hd
    rw [hd]
    rfl
  · intro hd
    rw [hd]
    rfl
  · cases toDatetime_range (getCell r "date_added") with
    | inl h => left; rw [h]; rfl
    | inr h => right; exact h

/-- C6 witness: the clean table's date "2021-03-15" yields year_added 2021. -/
theorem c6_witness :
    getCell (rowTransform exTableClean.cols exRowClean) "year_added"
      = Cell.num (Int.ofNat 2021) :=
  (c6_year_added exTableClean (rowTransform exTableClean.cols exRowClean)
      (by decide)).1 2021 3 15 (by decide)

/-! ### Claim C7 -/

/-- A clean row, duplicated in the C7 table. -/
def exRowDup : Row :=
  [("title", Cell.str "Show"), ("type", Cell.str "Movie"),
   ("release_year", Cell.num 2020), ("date_added", Cell.str "2021-03-15")]

/-- A row with a missing title. -/
def exRowNoTitle : Row :=
  [("title", Cell.na), ("type", Cell.str "Movie"),
   ("release_year", Cell.num 2019), ("date_added", Cell.na)]

/-- Two exactly identical rows plus one row with a missing title, over the
script's expected schema (in particular date_added is present, as line 25 of
the script reads that column unguarded). -/
def exTableC7 : Table :=
  ⟨["title", "type", "release_year", "date_added"],
   [exRowDup, exRowDup, exRowNoTitle]⟩

/-- C7: on an input of two exactly identical rows plus one title-less row,
the normalizer's output has exactly one row. -/
theorem c7_dedup_and_drop : (normalizeTable exTableC7).rows.length = 1 := by
  decide

/-! ### Claim C8 -/

/-- C8: the coercions are total and never raise: `to_numeric` always yields a
number or missing, `to_datetime` always yields a date or missing; and a
malformed cell never costs a row — after the two dropping stages the pipeline
keeps exactly one output row per survivor. -/
theorem c8_coercions_total :
    (∀ c : Cell, (toNumeric c = Cell.na ∨ ∃ n, toNumeric c = Cell.num n)
      ∧ (toDatetime c = Cell.na ∨ ∃ y m d, toDatetime c = Cell.date y m d))
    ∧ ∀ t : Table, (normalizeTable t).rows.length = (survivors t).length := by
  refine ⟨fun c => ⟨toNumeric_range c, toDatetime_range c⟩, fun t => ?_⟩
  rw [normalizeTable_rows, List.length_map]

/-! ### Claim C9 -/

/-- A row with a whitespace-only cell in an extra column "notes". -/
def exRowNotes : Row :=
  [("title", Cell.str "A"), ("type", Cell.str "Movie"),
   ("release_year", Cell.num 2020), ("date_added", Cell.na),
   ("notes", Cell.str "   ")]

/-- A table with the extra column "notes" beyond the expected set. -/
def exTableNotes : Table :=
  ⟨["title", "type", "release_year", "date_added", "notes"], [exRowNotes]⟩

/-- C9, as stated, is false on the pass-through part: the final sweep
`df.replace(r'^\s*$', np.nan, regex=True)` applies to every column, so a
whitespace-only value in the extra column "notes" is changed to missing. -/
theorem c9_counterexample :
    ¬ ((normalizeTable exTableNotes).rows.map (fun r => getCell r "notes")
        = exTableNotes.rows.map (fun r => getCell r "notes")) := by
  decide

/-- C9 (amended): when the expected columns are present and year_added is not,
the output column list is exactly the input column list with year_added
appended at the end (order preserved, no synthetic index column, exactly one
new column); and a column outside the categorical set and the three coerced
ones is passed through except that the final sweep turns its whitespace-only
string cells into missing. -/
theorem c9_schema (t : Table)
    (h1 : t.cols.contains "release_year" = true)
    (h2 : t.cols.contains "date_added" = true)
    (h3 : t.cols.contains "year_added" = false) :
    (normalizeTable t).cols = t.cols ++ ["year_added"]
    ∧ ∀ r ∈ survivors t, ∀ col, col ∉ catCols → col ≠ "release_year" →
        col ≠ "date_added" → col ≠ "year_added" →
        getCell (rowTransform t.cols r) col = blankToNa (getCell r col) := by
  constructor
  · have e1 : appendIfAbsent t.cols "release_year" = t.cols := by
      rw [appendIfAbsent, if_pos h1]
    have e2 : appendIfAbsent t.cols "date_added" = t.cols := by
      rw [appendIfAbsent, if_pos h2]
    have e3 : appendIfAbsent t.cols "year_added" = t.cols ++ ["year_added"] := by
      rw [appendIfAbsent, if_neg (by rw [h3]; decide)]
    rw [normalizeTable_cols, e1, e2, e3]
  · intro r _ col h0 hc1 hc2 hc3
    exact getCell_rowTransform_other t.cols r col h0 hc1 hc2 hc3

/-- C9 witness: the amended statement at the concrete table with the extra
"notes" column. -/
theorem c9_witness :
    (normalizeTable exTableNotes).cols = exTableNotes.cols ++ ["year_added"]
    ∧ getCell (rowTransform exTableNotes.cols exRowNotes) "notes"
        = blankToNa (getCell exRowNotes "notes") :=
  ⟨(c9_schema exTableNotes (by decide) (by decide) (by decide)).1,
   (c9_schema exTableNotes (by decide) (by decide) (by decide)).2 exRowNotes
      (by decide) "notes" (by decide) (by decide) (by decide) (by decide)⟩

/-! ### Dashboard (netflix_dashboard.py): load_data, the filter mask, and the
CSV export.  Only the data-shape behavior is embedded; widget wiring and
charting are presentation calls with no data effect. -/

/-- `Series.fillna(d)` on one cell. -/
def fillNa (d : String) (c : Cell) : Cell :=
  if isNa c then Cell.str d else c

/-- `str.extract(r"(\d+)")` on one cell: the first maximal digit run as a
number, missing if none (the `.astype(float)` is modelled as a number). -/
def skipToDigit : List Char → List Char
  | [] => []
  | c :: cs => if c.isDigit then c :: cs else skipToDigit cs

/-- First maximal digit run of a cell's string, as a number. -/
def extractMins : Cell → Cell
  | Cell.str s =>
    if (skipToDigit s.data).takeWhile Char.isDigit = [] then Cell.na
    else Cell.num (digitsVal ((skipToDigit s.data).takeWhile Char.isDigit))
  | _ => Cell.na

/-- `df['type'].str.lower() == "movie"` on one cell (missing compares false). -/
def isMovieCell : Cell → Bool
  | Cell.str s => pyLower s == "movie"
  | _ => false

/-- `df["date_added"] = pd.to_datetime(df["date_added"], errors="coerce")`. -/
def dashDates (t : Table) : Table :=
  t.setCol "date_added" (fun r => toDatetime (getCell r "date_added"))

/-- `df["release_year"] = pd.to_numeric(df["release_year"], errors="coerce")`. -/
def dashRy (t : Table) : Table :=
  t.setCol "release_year" (fun r => toNumeric (getCell r "release_year"))

/-- The year_added branch: derive it from date_added when the column is
missing, else coerce it to numeric. -/
def dashYa (t : Table) : Table :=
  if t.cols.contains "year_added" then
    t.setCol "year_added" (fun r => toNumeric (getCell r "year_added"))
  else
    t.setCol "year_added" (fun r => dtYear (getCell r "date_added"))

/-- The duration_mins derivation, guarded by `if 'duration' in df.columns`;
only movie rows get a value, via `df.loc[df['type'].str.lower() == "movie", ...]`. -/
def dashDur (t : Table) : Table :=
  if t.cols.contains "duration" then
    t.setCol "duration_mins" (fun r =>
      if isMovieCell (getCell r "type") then extractMins (getCell r "duration") else Cell.na)
  else t

/-- `df['country'] = df['country'].fillna('Unknown')`. -/
def dashCountry (t : Table) : Table :=
  t.setCol "country" (fun r => fillNa "Unknown" (getCell r "country"))

/-- `df['rating'] = df['rating'].fillna('Not Rated')`. -/
def dashRating (t : Table) : Table :=
  t.setCol "rating" (fun r => fillNa "Not Rated" (getCell r "rating"))

/-- `df['listed_in'] = df['listed_in'].fillna('Unknown Genre')`. -/
def dashListed (t : Table) : Table :=
  t.setCol "listed_in" (fun r => fillNa "Unknown Genre" (getCell r "listed_in"))

/-- The dashboard's `load_data` preprocessing, in source order. -/
def loadData (t : Table) : Table :=
  dashListed (dashRating (dashCountry (dashDur (dashYa (dashRy (dashDates t))))))

/-- Membership test of a cell's string in a selection list. -/
def cellInList (c : Cell) (xs : List String) : Bool :=
  match c with
  | Cell.str s => xs.contains s
  | _ => false

/-- `df['release_year'] >= lo` on one cell (missing compares false). -/
def numGe (c : Cell) (x : Int) : Bool :=
  match c with
  | Cell.num n => decide (x ≤ n)
  | _ => false

/-- `df['release_year'] <= hi` on one cell (missing compares false). -/
def numLe (c : Cell) (x : Int) : Bool :=
  match c with
  | Cell.num n => decide (n ≤ x)
  | _ => false

/-- The characters of a cell's string, `""` for anything else (`x or ""`). -/
def strOrEmpty : Cell → List Char
  | Cell.str s => s.data
  | _ => []

/-- Whether the first list leads the second (pattern-first). -/
def leadsList : List Char → List Char → Bool
  | [], _ => true
  | _ :: _, [] => false
  | p :: ps, c :: cs => (p == c) && leadsList ps cs

/-- Python substring containment `pat in l` over character lists. -/
def hasSubList (pat : List Char) : List Char → Bool
  | [] => pat.isEmpty
  | c :: cs => leadsList pat (c :: cs) || hasSubList pat cs

/-- `any(c in (x or "") for c in selected_countries)` on one cell. -/
def countryHit (c : Cell) (sel : List String) : Bool :=
  sel.any (fun p => hasSubList p.data (strOrEmpty c))

/-- The sidebar filter mask built from the four widget selections: an empty
type / country / rating selection means no constraint, and the year range is
always applied. -/
def maskPred (selTypes selCountries : List String) (lo hi : Int)
    (selRatings : List String) (r : Row) : Bool :=
  (selTypes.isEmpty || cellInList (getCell r "type") selTypes)
  && (selCountries.isEmpty || countryHit (getCell r "country") selCountries)
  && (numGe (getCell r "release_year") lo && numLe (getCell r "release_year") hi)
  && (selRatings.isEmpty || cellInList (getCell r "rating") selRatings)

/-- `filtered = df[mask]`: the table the download button exports via
`filtered.to_csv(index=False)`. -/
def filteredView (t : Table) (selTypes selCountries : List String) (lo hi : Int)
    (selRatings : List String) : Table :=
  { cols := (loadData t).cols,
    rows := (loadData t).rows.filter (maskPred selTypes selCountries lo hi selRatings) }

theorem contains_append_of (l1 l2 : List String) (a : String)
    (h : l1.contains a = true) : (l1 ++ l2).contains a = true := by
  rw [List.elem_iff] at h ⊢
  exact List.mem_append_left l2 h

/-! ### Claim C10 -/

/-- A normalized-file-shaped row, with a duration column. -/
def exRowDash : Row :=
  [("title", Cell.str "A"), ("type", Cell.str "Movie"),
   ("release_year", Cell.num 2020), ("date_added", Cell.na),
   ("year_added", Cell.na), ("duration", Cell.str "90 min"),
   ("country", Cell.na), ("rating", Cell.na), ("listed_in", Cell.na)]

/-- A normalized-file-shaped table read by the dashboard. -/
def exTableDash : Table :=
  ⟨["title", "type", "release_year", "date_added", "year_added", "duration",
    "country", "rating", "listed_in"], [exRowDash]⟩

/-- C10, as stated, is false: `load_data` adds a derived duration_mins column
whenever a duration column is present, so the exported CSV does not have
exactly the columns of the file the dashboard read. -/
theorem c10_counterexample :
    ¬ ((filteredView exTableDash [] [] 0 3000 []).cols = exTableDash.cols) := by
  decide

/-- C10 (amended): with the normalized file's columns present (and no
duration_mins column), the loaded dataframe's columns are exactly the file's
columns plus the derived duration_mins appended at the end, and the export of
the filtered subset has exactly the loaded dataframe's columns, whatever the
four filter selections are — filtering changes rows only, never the schema. -/
theorem c10_export_schema (t : Table)
    (hda : t.cols.contains "date_added" = true)
    (hry : t.cols.contains "release_year" = true)
    (hya : t.cols.contains "year_added" = true)
    (hdur : t.cols.contains "duration" = true)
    (hdm : t.cols.contains "duration_mins" = false)
    (hco : t.cols.contains "country" = true)
    (hra : t.cols.contains "rating" = true)
    (hli : t.cols.contains "listed_in" = true) :
    (loadData t).cols = t.cols ++ ["duration_mins"]
    ∧ ∀ selT selC lo hi selR,
        (filteredView t selT selC lo hi selR).cols = (loadData t).cols := by
  have e1 : (dashDates t).cols = t.cols := by
    rw [dashDates, setCol_cols, if_pos hda]
  have e2 : (dashRy (dashDates t)).cols = t.cols := by
    rw [dashRy, setCol_cols, e1, if_pos hry]
  have e3 : (dashYa (dashRy (dashDates t))).cols = t.cols := by
    rw [dashYa, e2, if_pos hya, setCol_cols, e2, if_pos hya]
  have e4 : (dashDur (dashYa (dashRy (dashDates t)))).cols
      = t.cols ++ ["duration_mins"] := by
    rw [dashDur, e3, if_pos hdur, setCol_cols, e3, if_neg (by rw [hdm]; decide)]
  have e5 : (dashCountry (dashDur (dashYa (dashRy (dashDates t))))).cols
      = t.cols ++ ["duration_mins"] := by
    rw [dashCountry, setCol_cols, e4, if_pos (contains_append_of _ _ _ hco)]
  have e6 : (dashRating (dashCountry (dashDur (dashYa (dashRy (dashDates t)))))).cols
      = t.cols ++ ["duration_mins"] := by
    rw [dashRating, setCol_cols, e5, if_pos (contains_append_of _ _ _ hra)]
  have e7 : (loadData t).cols = t.cols ++ ["duration_mins"] := by
    rw [loadData, dashListed, setCol_cols, e6, if_pos (contains_append_of _ _ _ hli)]
  exact ⟨e7, fun selT selC lo hi selR => rfl⟩

/-- C10 witness: the amended statement at the concrete normalized-file table. -/
theorem c10_witness :
    (loadData exTableDash).cols = exTableDash.cols ++ ["duration_mins"]
    ∧ (filteredView exTableDash [] [] 0 3000 []).cols = (loadData exTableDash).cols :=
  ⟨(c10_export_schema exTableDash (by decide) (by decide) (by decide) (by decide)
      (by decide) (by decide) (by decide) (by decide)).1,
   (c10_export_schema exTableDash (by decide) (by decide) (by decide) (by decide)
      (by decide) (by decide) (by decide) (by decide)).2 [] [] 0 3000 []⟩

/-! ### Helpers for the idempotence analysis -/

theorem tableEq (a b : Table) (hc : a.cols = b.cols) (hr : a.rows = b.rows) : a = b := by
  cases a
  cases b
  cases hc
  cases hr
  rfl

theorem contains_appendIfAbsent_self (cols : List String) (c : String) :
    (appendIfAbsent cols c).contains c = true := by
  rw [appendIfAbsent]
  by_cases h : cols.contains c = true
  · rw [if_pos h]; exact h
  · rw [if_neg h]
    rw [List.elem_iff]
    exact List.mem_append_right cols (List.mem_singleton.mpr rfl)

theorem contains_appendIfAbsent_of (cols : List String) (c c' : String)
    (h : cols.contains c' = true) : (appendIfAbsent cols c).contains c' = true := by
  rw [appendIfAbsent]
  by_cases hc : cols.contains c = true
  · rw [if_pos hc]; exact h
  · rw [if_neg hc]
    exact contains_append_of cols [c] c' h

theorem contains_appendIfAbsent_ne (cols : List String) (c c' : String) (h : c' ≠ c) :
    (appendIfAbsent cols c).contains c' = cols.contains c' := by
  rw [appendIfAbsent]
  by_cases hc : cols.contains c = true
  · rw [if_pos hc]
  · rw [if_neg hc]
    rw [Bool.eq_iff_iff, List.elem_iff, List.elem_iff]
    constructor
    · intro hm
      cases List.mem_append.mp hm with
      | inl hml => exact hml
      | inr hmr => exact absurd (List.mem_singleton.mp hmr) h
    · exact List.mem_append_left [c]

theorem contains_normCols_ry (t : Table) :
    (normalizeTable t).cols.contains "release_year" = true := by
  rw [normalizeTable_cols]
  exact contains_appendIfAbsent_of _ _ _ (contains_appendIfAbsent_of _ _ _
    (contains_appendIfAbsent_self t.cols "release_year"))

theorem contains_normCols_da (t : Table) :
    (normalizeTable t).cols.contains "date_added" = true := by
  rw [normalizeTable_cols]
  exact contains_appendIfAbsent_of _ _ _
    (contains_appendIfAbsent_self (appendIfAbsent t.cols "release_year") "date_added")

theorem contains_normCols_ya (t : Table) :
    (normalizeTable t).cols.contains "year_added" = true := by
  rw [normalizeTable_cols]
  exact contains_appendIfAbsent_self _ "year_added"

theorem contains_normCols_cat (t : Table) (col : String) (hmem : col ∈ catCols) :
    (normalizeTable t).cols.contains col = t.cols.contains col := by
  have h1 : col ≠ "release_year" := by
    intro e; rw [e] at hmem; exact absurd hmem (by decide)
  have h2 : col ≠ "date_added" := by
    intro e; rw [e] at hmem; exact absurd hmem (by decide)
  have h3 : col ≠ "year_added" := by
    intro e; rw [e] at hmem; exact absurd hmem (by decide)
  rw [normalizeTable_cols, contains_appendIfAbsent_ne _ _ _ h3,
    contains_appendIfAbsent_ne _ _ _ h2, contains_appendIfAbsent_ne _ _ _ h1]

theorem foldl_id_of (cols : List String) (r : Row) (L : List String)
    (h : ∀ col ∈ L, cleanCatRowStep cols r col = r) :
    List.foldl (cleanCatRowStep cols) r L = r := by
  induction L with
  | nil => rfl
  | cons c L ih =>
    rw [List.foldl_cons, h c (List.mem_cons_self c L)]
    exact ih (fun col hc => h col (List.mem_cons_of_mem c hc))

theorem getCell_of_findCol (r : Row) (c : String) (v : Cell)
    (h : findCol r c = some (c, v)) : getCell r c = v := by
  rw [getCell, h]

theorem filter_eq_self_of (p : Row → Bool) (l : List Row)
    (h : ∀ a ∈ l, p a = true) : l.filter p = l := by
  induction l with
  | nil => rfl
  | cons a l ih =>
    rw [List.filter_cons_of_pos (h a (List.mem_cons_self a l))]
    rw [ih (fun b hb => h b (List.mem_cons_of_mem a hb))]

theorem map_id_of (f : Row → Row) (l : List Row) (h : ∀ a ∈ l, f a = a) :
    l.map f = l := by
  induction l with
  | nil => rfl
  | cons a l ih =>
    rw [List.map_cons, h a (List.mem_cons_self a l)]
    rw [ih (fun b hb => h b (List.mem_cons_of_mem a hb))]

/-! ### Claim C3 -/

/-- C3, as stated, is false: normalizing the output of the normalizer can drop
further rows.  On the single-row table whose release_year is "abc", the first
pass keeps the row with release_year coerced to missing, and the second pass's
dropna removes it. -/
theorem c3_counterexample :
    ¬ (normalizeTable (normalizeTable exTableAbc) = normalizeTable exTableAbc) := by
  decide

/-- C3 (amended): the pipeline is idempotent exactly on the inputs whose
output is a fixed point of the dropping stages — whenever the first pass's
output has no duplicate rows, no missing title, type, or release_year, and no
missing value in a categorical column that is present, a second pass returns
it unchanged.  In general a second pass can drop rows (coercion-failed
release_year, whitespace-only essentials, duplicates created by the cleaning)
and rewrite cells (a missing categorical value becomes the string "Nan"). -/
theorem c3_idempotent_cond (t : Table)
    (h1 : (normalizeTable t).rows.Nodup)
    (h2 : ∀ r ∈ (normalizeTable t).rows,
        isNa (getCell r "title") = false ∧ isNa (getCell r "type") = false ∧
        isNa (getCell r "release_year") = false)
    (h3 : ∀ r ∈ (normalizeTable t).rows, ∀ col ∈ catCols,
        t.cols.contains col = true → isNa (getCell r col) = false) :
    normalizeTable (normalizeTable t) = normalizeTable t := by
  apply tableEq
  · rw [normalizeTable_cols (normalizeTable t)]
    have e1 : appendIfAbsent (normalizeTable t).cols "release_year"
        = (normalizeTable t).cols := by
      rw [appendIfAbsent, if_pos (contains_normCols_ry t)]
    have e2 : appendIfAbsent (normalizeTable t).cols "date_added"
        = (normalizeTable t).cols := by
      rw [appendIfAbsent, if_pos (contains_normCols_da t)]
    have e3 : appendIfAbsent (normalizeTable t).cols "year_added"
        = (normalizeTable t).cols := by
      rw [appendIfAbsent, if_pos (contains_normCols_ya t)]
    rw [e1, e2, e3]
  · rw [normalizeTable_rows (normalizeTable t)]
    have hsurv : survivors (normalizeTable t) = (normalizeTable t).rows := by
      rw [survivors, dropDuplicates_eq_self _ h1]
      apply filter_eq_self_of
      intro r hr
      obtain ⟨a, b, c⟩ := h2 r hr
      exact (essentialPred_iff r).mpr ⟨a, b, c⟩
    rw [hsurv]
    apply map_id_of
    intro r2 hr2
    have hr2b := hr2
    rw [normalizeTable_rows t] at hr2b
    obtain ⟨r, hr, hE⟩ := List.mem_map.mp hr2b
    have F1 : findCol r2 "release_year"
        = some ("release_year", toNumeric (getCell r "release_year")) := by
      rw [← hE]; exact findCol_rowTransform_ry t.cols r
    have F2 : findCol r2 "date_added"
        = some ("date_added", toDatetime (getCell r "date_added")) := by
      rw [← hE]; exact findCol_rowTransform_da t.cols r
    have F3 : findCol r2 "year_added"
        = some ("year_added", dtYear (toDatetime (getCell r "date_added"))) := by
      rw [← hE]; exact findCol_rowTransform_ya t.cols r
    have hstep1 : catCellFold (normalizeTable t).cols r2 = r2 := by
      apply foldl_id_of
      intro col hcol
      by_cases hcc : (normalizeTable t).cols.contains col = true
      · rw [cleanCatRowStep, if_pos hcc]
        have hct : t.cols.contains col = true := by
          rw [← contains_normCols_cat t col hcol]; exact hcc
        have F4 : findCol r2 col = some (col, catClean (getCell r col)) := by
          rw [← hE]; exact findCol_rowTransform_cat t.cols r col hcol hct
        have hv : getCell r2 col = catClean (getCell r col) :=
          getCell_of_findCol _ _ _ F4
        have hne : catClean (getCell r col) ≠ Cell.na := by
          intro e
          have hx := h3 r2 hr2 col hcol hct
          rw [hv, e] at hx
          cases hx
        rw [hv, catClean_idem _ hne]
        exact setCell_of_findCol r2 col _ F4
      · rw [cleanCatRowStep, if_neg hcc]
    show rowTransform (normalizeTable t).cols r2 = r2
    rw [rowTransform, hstep1]
    have hv1 : getCell r2 "release_year" = toNumeric (getCell r "release_year") :=
      getCell_of_findCol _ _ _ F1
    have hstep2 : ryStep r2 = r2 := by
      rw [ryStep, hv1, toNumeric_idem]
      exact setCell_of_findCol r2 _ _ F1
    rw [hstep2]
    have hv2 : getCell r2 "date_added" = toDatetime (getCell r "date_added") :=
      getCell_of_findCol _ _ _ F2
    have hstep3 : daStep r2 = r2 := by
      rw [daStep, hv2, toDatetime_idem]
      exact setCell_of_findCol r2 _ _ F2
    rw [hstep3]
    have hstep4 : yaStep r2 = r2 := by
      rw [yaStep, hv2]
      exact setCell_of_findCol r2 _ _ F3
    rw [hstep4]
    rw [← hE, rowTransform, blankRow_idem]

/-- C3 witness: the conditional idempotence applied to a concrete clean
table whose output satisfies all three side conditions. -/
theorem c3_witness :
    (normalizeTable exTableClean).rows.Nodup ∧
    normalizeTable (normalizeTable exTableClean) = normalizeTable exTableClean :=
  ⟨by decide, c3_idempotent_cond exTableClean (by decide) (by decide) (by decide)⟩
